import Mathlib

/-!
Verification of the translator repository: a shallow embedding of the
transcript-to-speech bridge (`src/components/DatabaseBridge.tsx`, canonical
feature-complete variant) and of the audio playback scheduler
(`AudioStreamer`, `src/unnamed/part_002`), together with theorems settling
the spec's testable properties.

Times are modelled as rationals, machine floats of the source being exact
decimal literals here; JavaScript strings are modelled as Lean `String`
via their character lists.
-/

/-- Whitespace characters removed by JavaScript `String.prototype.trim`
(restricted to the ASCII range, which is all the repository ever feeds it). -/
def isJsWhitespace (c : Char) : Bool :=
  c = ' ' || c = '\t' || c = '\n' || c = '\r' || c = Char.ofNat 11 || c = Char.ofNat 12

/-- Model of JavaScript `s.trim()`. -/
def jsTrim (s : String) : String :=
  String.mk (((s.data.dropWhile isJsWhitespace).reverse.dropWhile isJsWhitespace).reverse)

/-- State machine computing JavaScript `text.split(/\r?\n+/)`.

`run` is true while we are inside the `\n+` tail of a separator match
(further `\n` characters extend the match instead of splitting again);
`pending` is true when the previous character was a `\r` whose role
(separator head of `\r\n`, or literal text) is not yet known; `acc` holds the
current field, reversed.  Entered at `splitGo false false cs []`. -/
def splitGo : Bool → Bool → List Char → List Char → List (List Char)
  | _, pending, [], acc => [(if pending then '\r' :: acc else acc).reverse]
  | run, pending, c :: rest, acc =>
    if c = '\n' then
      if run then splitGo true false rest acc
      else acc.reverse :: splitGo true false rest []
    else if c = '\r' then
      splitGo false true rest (if pending then '\r' :: acc else acc)
    else
      splitGo false false rest (c :: (if pending then '\r' :: acc else acc))

/-- JavaScript `text.split(/\r?\n+/)` (the splitter used by `segmentText`). -/
def strSplitRegex (s : String) : List String :=
  (splitGo false false s.data []).map String.mk

/-- `segmentText` from `DatabaseBridge.tsx`:
`if (!text) return []; return text.split(/\r?\n+/).map(t => t.trim()).filter(t => t.length > 0)`. -/
def segmentText (text : String) : List String :=
  if text = "" then []
  else ((strSplitRegex text).map jsTrim).filter (fun t => decide (0 < t.length))

/-- State machine splitting a string at every single line break `\r?\n`
(JavaScript `text.split(/\r?\n/)`); same conventions as `splitGo` minus the
run state. Used to phrase the amended description of `segmentText`. -/
def splitLinesGo : Bool → List Char → List Char → List (List Char)
  | pending, [], acc => [(if pending then '\r' :: acc else acc).reverse]
  | pending, c :: rest, acc =>
    if c = '\n' then acc.reverse :: splitLinesGo false rest []
    else if c = '\r' then splitLinesGo true rest (if pending then '\r' :: acc else acc)
    else splitLinesGo false rest (c :: (if pending then '\r' :: acc else acc))

/-- The list of lines of a string (split at every `\r?\n`). -/
def strSplitLines (s : String) : List String :=
  (splitLinesGo false s.data []).map String.mk

/-- Amended description of `segmentText`: split at every line break
(not only at blank lines), trim each piece, drop the empty ones. -/
def segmentTextAmended (text : String) : List String :=
  ((strSplitLines text).map jsTrim).filter (fun t => decide (0 < t.length))

/-- Helper for `segmentTextBlankLineSpec`: group a list of lines into
paragraphs, a paragraph being a maximal run of non-blank lines joined by a
newline. `cur` is the paragraph being accumulated. -/
def groupParasGo : List String → Option String → List String
  | [], none => []
  | [], some p => [p]
  | line :: rest, cur =>
    if jsTrim line = "" then
      match cur with
      | some p => p :: groupParasGo rest none
      | none => groupParasGo rest none
    else
      match cur with
      | some p => groupParasGo rest (some (p ++ "\n" ++ line))
      | none => groupParasGo rest (some line)

/-- Modelled from the spec: "splitting the text on blank-line boundaries
into paragraphs, trimming each paragraph, and dropping empty ones" —
paragraphs are maximal runs of non-blank lines, blank lines being the
boundaries. -/
def segmentTextBlankLineSpec (text : String) : List String :=
  ((groupParasGo (strSplitLines text) none).map jsTrim).filter
    (fun t => decide (0 < t.length))

/-- Bool test that `p` is an initial segment of `s`, character by character
(model of JavaScript `s.startsWith(p)` for the ASCII prefixes used here). -/
def charsLead : List Char → List Char → Bool
  | [], _ => true
  | _ :: _, [] => false
  | a :: xs, b :: ys => a == b && charsLead xs ys

/-- Model of `raw.startsWith(tag)`. -/
def strLeads (tag raw : String) : Bool :=
  charsLead tag.data raw.data

/-- Model of `raw.replace(tag, '').trim()` under the guard
`raw.startsWith(tag)` (the first occurrence is then the leading one). -/
def stripTag (tag raw : String) : String :=
  jsTrim (String.mk (raw.data.drop tag.data.length))

/-- Speaker detection of the consumer loop (`DatabaseBridge.tsx` 313-329):
returns `(targetSpeaker, textToSend)`. -/
def detectSpeaker (rawText : String) : String × String :=
  if strLeads "Male 1:" rawText then ("Male 1", stripTag "Male 1:" rawText)
  else if strLeads "Male 2:" rawText then ("Male 2", stripTag "Male 2:" rawText)
  else if strLeads "Female 1:" rawText then ("Female 1", stripTag "Female 1:" rawText)
  else if strLeads "Female 2:" rawText then ("Female 2", stripTag "Female 2:" rawText)
  else ("default", rawText)

/-- The fixed filler token injected after every third paragraph. -/
def fillerToken : String := "(clears throat)"

/-- Voice-style transform of the consumer loop (`DatabaseBridge.tsx`
331-354): applied only to non-command text, keyed by the style name;
`natural` and unknown styles add no stage directions. -/
def applyStyle (style : String) (textToSend : String) : String :=
  if textToSend = fillerToken then textToSend
  else if style = "breathy" then "(soft inhale) " ++ textToSend ++ " ... (pause)"
  else if style = "dramatic" then "(slowly) " ++ textToSend ++ " ... (long pause)"
  else if style = "enthusiastic" then "(excitedly) " ++ textToSend
  else if style = "formal" then "(professionally) " ++ textToSend
  else if style = "conversational" then "(casually) " ++ textToSend
  else textToSend

/-- A transcript record, as read from the `transcripts` table. -/
structure TranscriptRec where
  id : String
  full_transcript_text : String
  session_id : String
  user_id : String
deriving DecidableEq

/-- A segment queue item (`QueueItem` in `DatabaseBridge.tsx`): `refData` is
`null` exactly for injected system messages such as the filler. -/
structure QueueItem where
  text : String
  refData : Option TranscriptRec
  turnId : Option String
deriving DecidableEq

/-- A row inserted into the `translations` table. -/
structure InsertRow where
  meeting_id : String
  user_id : String
  original_text : String
  translated_text : String
  language : String
deriving DecidableEq

/-- Observable actions of one run of the consumer loop: a text dispatched
to a speaker channel (`sendToSpeaker`), or a persistence insert, each
tagged with the queue item being processed. -/
inductive BridgeEvent where
  | sent (item : QueueItem) (scripted : String) (speaker : String)
  | inserted (item : QueueItem) (row : InsertRow)
deriving DecidableEq

/-- The arrival-wait poll (`DatabaseBridge.tsx` 371-382): starting at poll
index `i` with `fuel` polls left (the code polls every 100ms for up to
15000ms, hence 150 polls), succeed as soon as a reading of `endOfQueueTime`
exceeds the pre-send reading by more than 0.1s, else time out with
`false`. -/
def arrivalWaitFrom (readings : ℕ → ℚ) (preEnd : ℚ) : ℕ → ℕ → Bool
  | _, 0 => false
  | i, fuel + 1 =>
    if preEnd + 1/10 < readings i then true
    else arrivalWaitFrom readings preEnd (i + 1) fuel

/-- The full arrival wait: 150 polls of 100ms each (≈15s). -/
def arrivalWait (readings : ℕ → ℚ) (preEnd : ℚ) : Bool :=
  arrivalWaitFrom readings preEnd 0 150

/-- The consumer loop `processQueueLoop` (`DatabaseBridge.tsx` 295-423),
as the list of observable events of one run.

`conn k` is the `client.status === 'connected'` check at iteration `k` (a
`false` aborts the run, leaving the remaining items queued); `trans k` is
the content the translation buffer has accumulated when iteration `k`
reaches the persistence step; `tele k` gives the successive
`getAudioStreamerState().endOfQueueTime` readings of iteration `k`
(reading 0 being `preSendState`).  The arrival-wait outcome is computed as
in the code but, as in the code, only produces a warning, and the
pipelining wait only paces the loop, so neither contributes an event. -/
def processQueueLoop (style lang : String) (conn : ℕ → Bool) (trans : ℕ → String)
    (tele : ℕ → ℕ → ℚ) : ℕ → List QueueItem → List BridgeEvent
  | _, [] => []
  | k, item :: rest =>
    if conn k then
      let sp := detectSpeaker item.text
      let scripted := applyStyle style sp.2
      if jsTrim scripted = "" then
        processQueueLoop style lang conn trans tele (k + 1) rest
      else
        let preSend := tele k 0
        let _arrived := arrivalWait (fun i => tele k (i + 1)) preSend
        BridgeEvent.sent item scripted sp.1 ::
          ((match item.refData with
            | some d =>
              if jsTrim (trans k) = "" then []
              else [BridgeEvent.inserted item
                      ⟨d.session_id, d.user_id, item.text, jsTrim (trans k), lang⟩]
            | none => []) ++
            processQueueLoop style lang conn trans tele (k + 1) rest)
    else []

/-- The dispatches of a run, in order: `(scriptedText, targetSpeaker)`. -/
def dispatchesOf (evs : List BridgeEvent) : List (String × String) :=
  evs.filterMap fun ev =>
    match ev with
    | BridgeEvent.sent _ scripted speaker => some (scripted, speaker)
    | BridgeEvent.inserted _ _ => none

/-- The persistence inserts of a run, in order, with the item processed. -/
def insertsOf (evs : List BridgeEvent) : List (QueueItem × InsertRow) :=
  evs.filterMap fun ev =>
    match ev with
    | BridgeEvent.sent _ _ _ => none
    | BridgeEvent.inserted item row => some (item, row)

/-- The ideal dispatch sequence for a queue: each item transformed in
enqueue order, dropping exactly the items whose transformed text is empty
or whitespace-only. -/
def dispatchSpec (style : String) (q : List QueueItem) : List (String × String) :=
  q.filterMap fun item =>
    let sp := detectSpeaker item.text
    let scripted := applyStyle style sp.2
    if jsTrim scripted = "" then none else some (scripted, sp.1)

/-- `xs` is an initial segment of `ys`. -/
def ListLeads {α : Type} (xs ys : List α) : Prop :=
  ∃ zs, xs ++ zs = ys

/-- The queue items appended by the `segments.forEach` block of
`processNewData` (`DatabaseBridge.tsx` 451-465), with the final paragraph
counter: push the segment, bump the counter, and after every third
paragraph push the filler item with `refData = null`. -/
def enqueueSegs (d : TranscriptRec) (turnId : String) : ℕ → List String →
    List QueueItem × ℕ
  | c, [] => ([], c)
  | c, seg :: rest =>
    let c' := c + 1
    let r := enqueueSegs d turnId c' rest
    (⟨seg, some d, some turnId⟩ ::
      ((if 0 < c' ∧ c' % 3 = 0 then [⟨fillerToken, none, some turnId⟩] else []) ++ r.1),
      r.2)

/-- A UI conversation turn as created by `addTurn`. -/
structure TurnRec where
  id : String
  role : String
  text : String
  translation : String
  sourceText : String
  isFinal : Bool
deriving DecidableEq

/-- The mutable state of `DatabaseBridge` relevant to data ingestion. -/
structure BridgeState where
  lastProcessedId : Option String
  paragraphCount : ℕ
  queue : List QueueItem
  turns : List TurnRec
deriving DecidableEq

/-- `processNewData` (`DatabaseBridge.tsx` 429-468): ignore records with a
falsy text or an already-processed id; otherwise record the id, add a UI
turn (`turnId` standing for the generated `crypto.randomUUID()`), and
enqueue the segments with interleaved fillers. -/
def processNewData (turnId : String) (data : TranscriptRec) (s : BridgeState) :
    BridgeState :=
  if data.full_transcript_text = "" then s
  else if s.lastProcessedId = some data.id then s
  else
    let s1 : BridgeState :=
      { s with
        lastProcessedId := some data.id
        turns := s.turns ++
          [⟨turnId, "system", data.full_transcript_text, "",
            data.full_transcript_text, true⟩] }
    let segs := segmentText data.full_transcript_text
    if segs = [] then s1
    else
      let r := enqueueSegs data turnId s1.paragraphCount segs
      { s1 with queue := s1.queue ++ r.1, paragraphCount := r.2 }

/-- A Web Audio gain parameter: current base value and the last scheduled
linear ramp (`linearRampToValueAtTime(target, endTime)`). -/
structure GainParam where
  value : ℚ
  rampTarget : ℚ
  rampEndTime : ℚ
deriving DecidableEq

/-- The ambient pad's biquad filter settings. -/
structure FilterParam where
  frequency : ℚ
  q : ℚ
deriving DecidableEq

/-- One pad oscillator: triangle wave at `frequency` with a small random
`detune` (the sampled random value is supplied by the caller). -/
structure OscParam where
  frequency : ℚ
  detune : ℚ
deriving DecidableEq

/-- The state of an `AudioStreamer` (`src/unnamed/part_002`).  Pending
sample buffers are represented by their lengths in samples; the in-flight
`activeSources` set by its size; `padTeardownAt` is the absolute deadline
of the `setTimeout` scheduled by `stopPad`, when one is pending. -/
structure StreamerState where
  audioQueue : List ℕ
  isPlaying : Bool
  scheduledTime : ℚ
  checkTimeout : Bool
  activeSources : ℕ
  gainValue : ℚ
  padGain : Option GainParam
  padFilter : Option FilterParam
  padOscillators : List OscParam
  padTeardownAt : Option ℚ
  completeEvents : ℕ
deriving DecidableEq

namespace AudioStreamer

/-- `sampleRate = 24000`. -/
def sampleRate : ℚ := 24000

/-- `bufferSize = 7680`. -/
def bufferSize : ℕ := 7680

/-- `initialBufferTime = 0.1`. -/
def initialBufferTime : ℚ := 1/10

/-- `SCHEDULE_AHEAD_TIME = 0.2`. -/
def scheduleAheadTime : ℚ := 1/5

/-- The state of a freshly constructed `AudioStreamer`. -/
def initState : StreamerState :=
  { audioQueue := []
    isPlaying := false
    scheduledTime := 0
    checkTimeout := false
    activeSources := 0
    gainValue := 1
    padGain := none
    padFilter := none
    padOscillators := []
    padTeardownAt := none
    completeEvents := 0 }

/-- Telemetry `duration`: 0 when not playing, else the remaining scheduled
audio clamped at 0 (`Math.max(0, scheduledTime - currentTime)`). -/
def duration (now : ℚ) (s : StreamerState) : ℚ :=
  if s.isPlaying = false then 0 else max 0 (s.scheduledTime - now)

/-- Telemetry `endOfQueueTime = scheduledTime`. -/
def endOfQueueTime (s : StreamerState) : ℚ :=
  s.scheduledTime

/-- Splitting a decoded chunk of `n` samples into fixed-size buffers, the
trailing remainder flushed as a final short buffer. -/
def chunkBuffers (n : ℕ) : List ℕ :=
  List.replicate (n / bufferSize) bufferSize ++
    (if n % bufferSize = 0 then [] else [n % bufferSize])

/-- The `while` loop of `scheduleNextBuffer`: while the queue is non-empty
and `scheduledTime < now + SCHEDULE_AHEAD_TIME`, pop the front buffer,
start it at `max(scheduledTime, now)` and advance `scheduledTime` by its
duration, adding it to the active set.  Returns the new
`(scheduledTime, activeSources, queue)`. -/
def scheduleLoop (now : ℚ) : List ℕ → ℚ → ℕ → ℚ × ℕ × List ℕ
  | [], st, act => (st, act, [])
  | n :: rest, st, act =>
    if st < now + scheduleAheadTime then
      scheduleLoop now rest (max st now + (n : ℚ) / sampleRate) (act + 1)
    else (st, act, n :: rest)

/-- `scheduleNextBuffer` (`part_002` 199-252): a no-op when not playing;
otherwise run the scheduling loop and re-arm the 100ms check timer while
any queued or in-flight buffer remains. -/
def scheduleNextBuffer (now : ℚ) (s : StreamerState) : StreamerState :=
  if s.isPlaying = false then s
  else
    let r := scheduleLoop now s.audioQueue s.scheduledTime s.activeSources
    { s with
      scheduledTime := r.1
      activeSources := r.2.1
      audioQueue := r.2.2
      checkTimeout :=
        if r.2.2 ≠ [] ∨ 0 < r.2.1 then true else s.checkTimeout }

/-- `addPCM16` (`part_002` 167-187) on a chunk of `bytes` bytes (decoded to
`bytes / 2` samples): append the buffers; when idle, enter `Playing`,
re-anchor `scheduledTime` to `now + initialBufferTime` if it fell behind,
and run a scheduling pass. -/
def addPCM16 (now : ℚ) (bytes : ℕ) (s : StreamerState) : StreamerState :=
  let q' := s.audioQueue ++ chunkBuffers (bytes / 2)
  if s.isPlaying then { s with audioQueue := q' }
  else
    scheduleNextBuffer now
      { s with
        audioQueue := q'
        isPlaying := true
        scheduledTime :=
          if s.scheduledTime < now then now + initialBufferTime
          else s.scheduledTime }

/-- The `onended` callback of a scheduled source (`part_002` 214-221):
remove it from the active set; when both the active set and the queue are
empty, leave `Playing` and raise `onComplete`. -/
def sourceEnded (s : StreamerState) : StreamerState :=
  let act := s.activeSources - 1
  if act = 0 ∧ s.audioQueue = [] then
    { s with
      activeSources := act
      isPlaying := false
      completeEvents := s.completeEvents + 1 }
  else { s with activeSources := act }

/-- `stop` (`part_002` 254-271): leave `Playing`, clear the check timer,
discard the queue, stop and clear all in-flight sources, reset
`scheduledTime` to `now`, raise `onComplete`. -/
def stop (now : ℚ) (s : StreamerState) : StreamerState :=
  { s with
    isPlaying := false
    checkTimeout := false
    audioQueue := []
    activeSources := 0
    scheduledTime := now
    completeEvents := s.completeEvents + 1 }

/-- `resume` (`part_002` 273-279): resume the context, set the main gain
to 1 and re-anchor `scheduledTime` to `now + initialBufferTime`. -/
def resume (now : ℚ) (s : StreamerState) : StreamerState :=
  { s with gainValue := 1, scheduledTime := now + initialBufferTime }

/-- `complete` (`part_002` 281-288). -/
def complete (s : StreamerState) : StreamerState :=
  { s with
    isPlaying := false
    checkTimeout := false
    completeEvents := s.completeEvents + 1 }

/-- The pad oscillator base frequencies. -/
def padFreqs : List ℚ := [14683/100, 220, 29366/100]

/-- `startPad(volume)` (`part_002` 74-103): a no-op when the pad exists;
otherwise build gain (value 0, ramped to `volume` over 2s), low-pass filter
and the three detuned oscillators (`detunes i` being the sampled random
detune of oscillator `i`). -/
def startPad (now volume : ℚ) (detunes : ℕ → ℚ) (s : StreamerState) :
    StreamerState :=
  if s.padGain.isSome then s
  else
    { s with
      padGain := some ⟨0, volume, now + 2⟩
      padFilter := some ⟨400, 1⟩
      padOscillators :=
        (List.range padFreqs.length).map fun i =>
          ⟨padFreqs.getD i 0, detunes i⟩ }

/-- `setPadVolume(volume)` (`part_002` 68-72): ramp the pad gain to
`volume` over 0.5s when the pad exists. -/
def setPadVolume (now volume : ℚ) (s : StreamerState) : StreamerState :=
  match s.padGain with
  | some g => { s with padGain := some { g with rampTarget := volume, rampEndTime := now + 1/2 } }
  | none => s

/-- The immediate part of `stopPad` (`part_002` 105-123): when the pad
exists, ramp its gain to 0 over 2s and schedule the deferred teardown of
the synthesis chain 2000ms later; the chain itself is left in place. -/
def stopPad (now : ℚ) (s : StreamerState) : StreamerState :=
  match s.padGain with
  | some g =>
    { s with
      padGain := some { g with rampTarget := 0, rampEndTime := now + 2 }
      padTeardownAt := some (now + 2) }
  | none => s

/-- The deferred `setTimeout` body of `stopPad`, firing at time `now`: a
timer callback cannot run before its deadline, so the teardown happens only
when `now` has reached the scheduled deadline, and then stops the
oscillators and disconnects and drops the whole chain. -/
def firePadTeardown (now : ℚ) (s : StreamerState) : StreamerState :=
  match s.padTeardownAt with
  | some deadline =>
    if now < deadline then s
    else
      { s with
        padOscillators := []
        padGain := none
        padFilter := none
        padTeardownAt := none }
  | none => s

end AudioStreamer

/-- One externally triggered operation on the streamer, used to quantify
over everything that can happen to it during a playing period. -/
inductive StreamerStep where
  | addPCM16 (bytes : ℕ)
  | schedulePass
  | sourceEnded
  | stop
  | resume
  | complete
  | startPad (volume : ℚ) (detunes : ℕ → ℚ)
  | setPadVolume (volume : ℚ)
  | stopPad
  | padTeardownFire

/-- Apply one operation at clock time `now`. -/
def applyStep (now : ℚ) (st : StreamerStep) (s : StreamerState) : StreamerState :=
  match st with
  | StreamerStep.addPCM16 bytes => AudioStreamer.addPCM16 now bytes s
  | StreamerStep.schedulePass => AudioStreamer.scheduleNextBuffer now s
  | StreamerStep.sourceEnded => AudioStreamer.sourceEnded s
  | StreamerStep.stop => AudioStreamer.stop now s
  | StreamerStep.resume => AudioStreamer.resume now s
  | StreamerStep.complete => AudioStreamer.complete s
  | StreamerStep.startPad volume detunes => AudioStreamer.startPad now volume detunes s
  | StreamerStep.setPadVolume volume => AudioStreamer.setPadVolume now volume s
  | StreamerStep.stopPad => AudioStreamer.stopPad now s
  | StreamerStep.padTeardownFire => AudioStreamer.firePadTeardown now s

/-- Trim every field and keep the non-empty results (the common tail of
`segmentText` and its restatements). -/
def trimNonempty (l : List (List Char)) : List String :=
  (l.map fun cl => jsTrim (String.mk cl)).filter fun t => decide (0 < t.length)

/-- A concrete transcript record, used to instantiate theorems. -/
def sampleTranscript : TranscriptRec :=
  ⟨"rec-1", "Hello\n\nWorld\n", "sess-1", "user-1"⟩

/-- A concrete bridge state that has already processed `sampleTranscript`. -/
def sampleBridgeState : BridgeState :=
  ⟨some "rec-1", 0, [], []⟩

/-- A concrete streamer state in the `Playing` state. -/
def samplePlaying : StreamerState :=
  { AudioStreamer.initState with isPlaying := true }

/-- A concrete streamer state with a live ambient pad and a pending pad
teardown scheduled for time 5. -/
def samplePad : StreamerState :=
  { AudioStreamer.initState with
    padGain := some ⟨0, 1/2, 2⟩
    padFilter := some ⟨400, 1⟩
    padOscillators := [⟨14683/100, 1⟩]
    padTeardownAt := some 5 }

/-- C4: after `stop()` the queue is empty, the in-flight set is empty, the
state is `Idle`, `scheduledTime` equals the clock time, `duration = 0`. -/
theorem claim_C4_stop_postcondition : ∀ (s : StreamerState) (now : ℚ),
    (AudioStreamer.stop now s).audioQueue = [] ∧
    (AudioStreamer.stop now s).activeSources = 0 ∧
    (AudioStreamer.stop now s).isPlaying = false ∧
    (AudioStreamer.stop now s).scheduledTime = now ∧
    AudioStreamer.duration now (AudioStreamer.stop now s) = 0 := by
  intro s now
  simp [AudioStreamer.stop, AudioStreamer.duration]

/-- C7: with style `dramatic` a non-filler text `t` becomes
`"(slowly) " ++ t ++ " ... (long pause)"`, the filler is dispatched
verbatim under every style, and `"go now"` maps to the expected string. -/
theorem claim_C7_dramatic_transform :
    (∀ t : String, t ≠ fillerToken →
      applyStyle "dramatic" t = "(slowly) " ++ t ++ " ... (long pause)") ∧
    (∀ style : String, applyStyle style fillerToken = fillerToken) ∧
    applyStyle "dramatic" "go now" = "(slowly) go now ... (long pause)" := by
  refine ⟨?_, ?_, by decide⟩
  · intro t ht
    simp [applyStyle, ht]
  · intro style
    simp [applyStyle]

/-- Witness for C7 at the concrete input `"go now"`. -/
theorem claim_C7_witness :
    applyStyle "dramatic" "go now" = "(slowly) go now ... (long pause)" :=
  claim_C7_dramatic_transform.1 "go now" (by decide)

/-- C9: `stop()` of the main queue leaves every ambient-pad component
untouched; `stopPad()` only ramps the gain to 0 over 2s and schedules the
teardown for 2s later, leaving the chain in place; the deferred teardown is
a no-op before its deadline and clears the chain once the deadline (the end
of the ramp) is reached. -/
theorem claim_C9_pad_decoupled :
    (∀ (s : StreamerState) (now : ℚ),
      (AudioStreamer.stop now s).padGain = s.padGain ∧
      (AudioStreamer.stop now s).padFilter = s.padFilter ∧
      (AudioStreamer.stop now s).padOscillators = s.padOscillators ∧
      (AudioStreamer.stop now s).padTeardownAt = s.padTeardownAt) ∧
    (∀ (s : StreamerState) (now : ℚ) (g : GainParam), s.padGain = some g →
      (AudioStreamer.stopPad now s).padGain =
        some { g with rampTarget := 0, rampEndTime := now + 2 } ∧
      (AudioStreamer.stopPad now s).padOscillators = s.padOscillators ∧
      (AudioStreamer.stopPad now s).padFilter = s.padFilter ∧
      (AudioStreamer.stopPad now s).padTeardownAt = some (now + 2)) ∧
    (∀ (s : StreamerState) (now deadline : ℚ), s.padTeardownAt = some deadline →
      now < deadline → AudioStreamer.firePadTeardown now s = s) ∧
    (∀ (s : StreamerState) (now deadline : ℚ), s.padTeardownAt = some deadline →
      deadline ≤ now →
      (AudioStreamer.firePadTeardown now s).padGain = none ∧
      (AudioStreamer.firePadTeardown now s).padFilter = none ∧
      (AudioStreamer.firePadTeardown now s).padOscillators = []) := by
  refine ⟨?_, ?_, ?_, ?_⟩
  · intro s now
    simp [AudioStreamer.stop]
  · intro s now g hg
    simp [AudioStreamer.stopPad, hg]
  · intro s now deadline hd hlt
    simp [AudioStreamer.firePadTeardown, hd, not_le.mpr hlt]
  · intro s now deadline hd hle
    simp [AudioStreamer.firePadTeardown, hd, not_lt.mpr hle]

/-- Witness for C9 on the concrete state `samplePad`: `stopPad` at time 0
leaves the oscillators in place and schedules the teardown for time 2; the
pending teardown (deadline 5) does not fire at time 0 but clears the pad
gain once fired at time 6. -/
theorem claim_C9_witness :
    (AudioStreamer.stopPad 0 samplePad).padOscillators = samplePad.padOscillators ∧
    (AudioStreamer.stopPad 0 samplePad).padTeardownAt = some (0 + 2) ∧
    AudioStreamer.firePadTeardown 0 samplePad = samplePad ∧
    (AudioStreamer.firePadTeardown 6 samplePad).padGain = none :=
  ⟨(claim_C9_pad_decoupled.2.1 samplePad 0 ⟨0, 1/2, 2⟩ rfl).2.1,
   (claim_C9_pad_decoupled.2.1 samplePad 0 ⟨0, 1/2, 2⟩ rfl).2.2.2,
   claim_C9_pad_decoupled.2.2.1 samplePad 0 5 rfl (by norm_num),
   (claim_C9_pad_decoupled.2.2.2 samplePad 6 5 rfl (by norm_num)).1⟩

/-- C2 (amended): the telemetry `duration` is never negative and is 0
whenever the scheduler is idle, and under every operation except `resume`
`scheduledTime` never decreases while the state remains `Playing`;
`resume` re-anchors `scheduledTime` to `now + 0.1` and is the one operation
that can pull it back during a `Playing` period. -/
theorem claim_C2_amended : ∀ (s : StreamerState) (st : StreamerStep) (now : ℚ),
    0 ≤ AudioStreamer.duration now s ∧
    (s.isPlaying = false → AudioStreamer.duration now s = 0) ∧
    (st ≠ StreamerStep.resume → s.isPlaying = true →
      (applyStep now st s).isPlaying = true →
      s.scheduledTime ≤ (applyStep now st s).scheduledTime) := by
  have hloop : ∀ (now : ℚ) (q : List ℕ) (st : ℚ) (act : ℕ),
      st ≤ (AudioStreamer.scheduleLoop now q st act).1 := by
    intro now q
    induction q with
    | nil => intro st act; simp [AudioStreamer.scheduleLoop]
    | cons n rest ih =>
      intro st act
      simp only [AudioStreamer.scheduleLoop]
      split
      · refine le_trans ?_ (ih _ _)
        have h1 : st ≤ max st now := le_max_left _ _
        have h2 : (0 : ℚ) ≤ (n : ℚ) / AudioStreamer.sampleRate := by
          apply div_nonneg (by positivity)
          norm_num [AudioStreamer.sampleRate]
        linarith
      · exact le_refl _
  intro s st now
  refine ⟨?_, ?_, ?_⟩
  · unfold AudioStreamer.duration
    split
    · exact le_refl _
    · exact le_max_left _ _
  · intro h
    simp [AudioStreamer.duration, h]
  · intro hne hplay hplay'
    cases st with
    | addPCM16 bytes =>
      simp [applyStep, AudioStreamer.addPCM16, hplay]
    | schedulePass =>
      simp [applyStep, AudioStreamer.scheduleNextBuffer, hplay]
      exact hloop now s.audioQueue s.scheduledTime s.activeSources
    | sourceEnded =>
      simp only [applyStep, AudioStreamer.sourceEnded]
      split <;> simp
    | stop =>
      simp [applyStep, AudioStreamer.stop] at hplay'
    | resume => exact absurd rfl hne
    | complete =>
      simp [applyStep, AudioStreamer.complete]
    | startPad volume detunes =>
      simp only [applyStep, AudioStreamer.startPad]
      split <;> simp
    | setPadVolume volume =>
      simp only [applyStep, AudioStreamer.setPadVolume]
      split <;> simp
    | stopPad =>
      simp only [applyStep, AudioStreamer.stopPad]
      split <;> simp
    | padTeardownFire =>
      simp only [applyStep, AudioStreamer.firePadTeardown]
      split
      · split <;> simp
      · simp

/-- Witness for C2 (amended): on concrete states, `duration` of an idle
streamer is 0, and a scheduling pass on a `Playing` state keeps it playing
without decreasing `scheduledTime`. -/
theorem claim_C2_witness :
    AudioStreamer.duration 0 AudioStreamer.initState = 0 ∧
    samplePlaying.scheduledTime ≤
      (applyStep 0 StreamerStep.schedulePass samplePlaying).scheduledTime :=
  ⟨(claim_C2_amended AudioStreamer.initState StreamerStep.schedulePass 0).2.1 rfl,
   (claim_C2_amended samplePlaying StreamerStep.schedulePass 0).2.2
     (fun h => StreamerStep.noConfusion h) rfl rfl⟩

/-- C2 counterexample: from a fresh streamer, one 15360-byte chunk at time
10 enters `Playing` with `scheduledTime = 10.42`; calling `resume` at the
same time leaves the state `Playing` but pulls `scheduledTime` back to
`10.1`, so `scheduledTime` does decrease within a `Playing` period. -/
theorem claim_C2_counterexample :
    (applyStep 10 (StreamerStep.addPCM16 15360) AudioStreamer.initState).isPlaying = true ∧
    (applyStep 10 StreamerStep.resume
      (applyStep 10 (StreamerStep.addPCM16 15360) AudioStreamer.initState)).isPlaying = true ∧
    (applyStep 10 StreamerStep.resume
        (applyStep 10 (StreamerStep.addPCM16 15360) AudioStreamer.initState)).scheduledTime <
      (applyStep 10 (StreamerStep.addPCM16 15360) AudioStreamer.initState).scheduledTime := by
  refine ⟨rfl, rfl, ?_⟩
  norm_num [applyStep, AudioStreamer.addPCM16, AudioStreamer.resume,
    AudioStreamer.scheduleNextBuffer, AudioStreamer.chunkBuffers,
    AudioStreamer.scheduleLoop, AudioStreamer.initState,
    AudioStreamer.initialBufferTime, AudioStreamer.scheduleAheadTime,
    AudioStreamer.sampleRate, AudioStreamer.bufferSize]

/-- C6: the items enqueued for segments with a running paragraph counter
starting at `c` are exactly the segments in order, each carrying the source
record, with exactly one filler item (fixed token, `refData = null`,
hence routed to the default channel with no speaker tag) immediately after
every segment whose running number `c + i + 1` is divisible by 3; the
counter advances by the number of segments. -/
theorem claim_C6_filler_every_third :
    ∀ (d : TranscriptRec) (turnId : String) (c : ℕ) (segs : List String),
      (enqueueSegs d turnId c segs).1 =
        ((segs.enumFrom (c + 1)).map fun p =>
          (⟨p.2, some d, some turnId⟩ : QueueItem) ::
            (if p.1 % 3 = 0 then [(⟨fillerToken, none, some turnId⟩ : QueueItem)]
             else [])).flatten ∧
      (enqueueSegs d turnId c segs).2 = c + segs.length ∧
      detectSpeaker fillerToken = ("default", fillerToken) := by
  intro d turnId c segs
  refine ⟨?_, ?_, by decide⟩
  · induction segs generalizing c with
    | nil => simp [enqueueSegs, List.enumFrom]
    | cons seg rest ih =>
      simp only [enqueueSegs, List.enumFrom_cons, List.map_cons, List.flatten_cons]
      rw [ih (c + 1)]
      simp [Nat.succ_pos]
  · induction segs generalizing c with
    | nil => simp [enqueueSegs]
    | cons seg rest ih =>
      simp only [enqueueSegs, List.length_cons]
      rw [ih (c + 1)]
      omega

/-- C8: a transcript record whose id equals the last processed id is a
no-op (no new turn, no new segments), and processing the same record twice
equals processing it once. -/
theorem claim_C8_dedup_idempotent :
    (∀ (turnId : String) (d : TranscriptRec) (s : BridgeState),
      s.lastProcessedId = some d.id → processNewData turnId d s = s) ∧
    (∀ (t1 t2 : String) (d : TranscriptRec) (s : BridgeState),
      processNewData t1 d (processNewData t2 d s) = processNewData t2 d s) := by
  have h1 : ∀ (turnId : String) (d : TranscriptRec) (s : BridgeState),
      s.lastProcessedId = some d.id → processNewData turnId d s = s := by
    intro turnId d s h
    unfold processNewData
    by_cases htxt : d.full_transcript_text = ""
    · rw [if_pos htxt]
    · rw [if_neg htxt, if_pos h]
  refine ⟨h1, ?_⟩
  intro t1 t2 d s
  by_cases htxt : d.full_transcript_text = ""
  · simp [processNewData, htxt]
  · by_cases hid : s.lastProcessedId = some d.id
    · rw [h1 t2 d s hid, h1 t1 d s hid]
    · apply h1
      unfold processNewData
      rw [if_neg htxt, if_neg hid]
      dsimp only
      split <;> rfl

/-- Witness for C8: processing `sampleTranscript` over a state that already
recorded its id leaves the state unchanged. -/
theorem claim_C8_witness :
    processNewData "turn-1" sampleTranscript sampleBridgeState = sampleBridgeState :=
  claim_C8_dedup_idempotent.1 "turn-1" sampleTranscript sampleBridgeState rfl

/-- The insert block of an iteration contributes no dispatch. -/
theorem dispatchesOf_insertBlock (item : QueueItem) (trans lang : String) :
    dispatchesOf
      (match item.refData with
        | some d =>
          if jsTrim trans = "" then []
          else [BridgeEvent.inserted item
                  ⟨d.session_id, d.user_id, item.text, jsTrim trans, lang⟩]
        | none => []) = [] := by
  rcases item.refData with _ | d
  · rfl
  · by_cases h : jsTrim trans = "" <;> simp [h, dispatchesOf]

/-- FIFO helper: whatever the connection schedule, the dispatches of a run
form an initial segment of the ideal dispatch sequence of the queue. -/
theorem loop_dispatch_leads (style lang : String) (conn : ℕ → Bool)
    (trans : ℕ → String) (tele : ℕ → ℕ → ℚ) : ∀ (q : List QueueItem) (k : ℕ),
    ListLeads (dispatchesOf (processQueueLoop style lang conn trans tele k q))
      (dispatchSpec style q) := by
  intro q
  induction q with
  | nil => intro k; exact ⟨[], rfl⟩
  | cons item rest ih =>
    intro k
    by_cases hc : conn k
    · by_cases hskip : jsTrim (applyStyle style (detectSpeaker item.text).2) = ""
      · simp only [processQueueLoop, hc, if_true, hskip, ite_true, ite_false,
          dispatchSpec, List.filterMap_cons]
        exact ih (k + 1)
      · simp only [processQueueLoop, hc, if_true, hskip, ite_true, ite_false,
          dispatchSpec, List.filterMap_cons, dispatchesOf, List.filterMap_append]
        obtain ⟨zs, hz⟩ := ih (k + 1)
        refine ⟨zs, ?_⟩
        have hins := dispatchesOf_insertBlock item (trans k) lang
        simp only [dispatchesOf] at hins
        rw [hins]
        simp only [List.nil_append, List.cons_append]
        exact congrArg (List.cons _) hz
    · simp only [processQueueLoop, hc, if_false, Bool.false_eq_true, ite_false]
      exact ⟨dispatchSpec style (item :: rest), rfl⟩

/-- FIFO helper: with the client connected throughout, the dispatches of a
run are exactly the ideal dispatch sequence of the queue. -/
theorem loop_dispatch_all (style lang : String) (trans : ℕ → String)
    (tele : ℕ → ℕ → ℚ) : ∀ (q : List QueueItem) (k : ℕ),
    dispatchesOf (processQueueLoop style lang (fun _ => true) trans tele k q) =
      dispatchSpec style q := by
  intro q
  induction q with
  | nil => intro k; rfl
  | cons item rest ih =>
    intro k
    by_cases hskip : jsTrim (applyStyle style (detectSpeaker item.text).2) = ""
    · simp only [processQueueLoop, if_true, hskip, ite_true, ite_false,
        dispatchSpec, List.filterMap_cons]
      exact ih (k + 1)
    · simp only [processQueueLoop, if_true, hskip, ite_true, ite_false,
        dispatchSpec, List.filterMap_cons, dispatchesOf, List.filterMap_append]
      have hins := dispatchesOf_insertBlock item (trans k) lang
      simp only [dispatchesOf] at hins
      rw [hins]
      simp only [List.nil_append]
      have h2 := ih (k + 1)
      simp only [dispatchesOf, dispatchSpec] at h2
      rw [h2]

/-- The events of a run do not depend on the telemetry readings: the
arrival-wait outcome is only logged, never acted upon. -/
theorem loop_tele_irrelevant (style lang : String) (conn : ℕ → Bool)
    (trans : ℕ → String) (tele tele' : ℕ → ℕ → ℚ) : ∀ (q : List QueueItem) (k : ℕ),
    processQueueLoop style lang conn trans tele k q =
      processQueueLoop style lang conn trans tele' k q := by
  intro q
  induction q with
  | nil => intro k; rfl
  | cons item rest ih =>
    intro k
    by_cases hc : conn k
    · by_cases hskip : jsTrim (applyStyle style (detectSpeaker item.text).2) = ""
      · simp only [processQueueLoop, hc, if_true, hskip, ite_true, ite_false]
        exact ih (k + 1)
      · simp only [processQueueLoop, hc, if_true, hskip, ite_true, ite_false]
        rw [ih (k + 1)]
    · simp only [processQueueLoop, hc, if_false, Bool.false_eq_true, ite_false]

/-- Timing out: if no reading ever exceeds the pre-send level by more than
0.1, the arrival poll runs out of fuel and reports `false`. -/
theorem arrivalWaitFrom_stagnant (readings : ℕ → ℚ) (preEnd : ℚ)
    (h : ∀ j, ¬ preEnd + 1/10 < readings j) : ∀ (fuel i : ℕ),
    arrivalWaitFrom readings preEnd i fuel = false := by
  intro fuel
  induction fuel with
  | zero => intro i; rfl
  | succ n ih =>
    intro i
    simp only [arrivalWaitFrom, h i, ite_false]
    exact ih (i + 1)

/-- Every persistence insert of a run carries a non-null `refData` and a
non-empty translated text. -/
theorem loop_inserts_sound (style lang : String) (conn : ℕ → Bool)
    (trans : ℕ → String) (tele : ℕ → ℕ → ℚ) : ∀ (q : List QueueItem) (k : ℕ),
    ((insertsOf (processQueueLoop style lang conn trans tele k q)).all
      fun ev => ev.1.refData.isSome && !(ev.2.translated_text == "")) = true := by
  intro q
  induction q with
  | nil => intro k; rfl
  | cons item rest ih =>
    intro k
    by_cases hc : conn k
    · by_cases hskip : jsTrim (applyStyle style (detectSpeaker item.text).2) = ""
      · simp only [processQueueLoop, hc, if_true, hskip, ite_true, ite_false]
        exact ih (k + 1)
      · simp only [processQueueLoop, hc, if_true, hskip, ite_true, ite_false,
          insertsOf, List.filterMap_cons, List.filterMap_append, List.all_append]
        rcases hrd : item.refData with _ | d
        · simp only [hrd]
          have h2 := ih (k + 1)
          simp only [insertsOf] at h2
          simpa using h2
        · simp only [hrd]
          by_cases htr : jsTrim (trans k) = ""
          · simp only [htr, ite_true]
            have h2 := ih (k + 1)
            simp only [insertsOf] at h2
            simpa using h2
          · simp only [htr, ite_false]
            have h2 := ih (k + 1)
            simp only [insertsOf] at h2
            simp [hrd, htr, h2]
    · simp only [processQueueLoop, hc, if_false, Bool.false_eq_true, ite_false]
      rfl

/-- Every filler item the enqueue block pushes is the literal
`(clears throat)` item with `refData = null`; every other pushed item
carries the source record. -/
theorem enqueueSegs_filler_refData (d : TranscriptRec) (turnId : String) :
    ∀ (segs : List String) (c : ℕ),
    ((enqueueSegs d turnId c segs).1.all
      fun it => it.refData.isSome ||
        (it == (⟨fillerToken, none, some turnId⟩ : QueueItem))) = true := by
  intro segs
  induction segs with
  | nil => intro c; rfl
  | cons seg rest ih =>
    intro c
    simp only [enqueueSegs, List.all_cons, List.all_append]
    by_cases h3 : 0 < c + 1 ∧ (c + 1) % 3 = 0
    · simp [h3, ih (c + 1)]
    · simp [h3, ih (c + 1)]

/-- C1: for every queue of text segments, whatever the connection schedule,
the translation buffers and the telemetry, the consumer loop dispatches the
transformed texts in exactly the enqueue order — an initial segment of the
ideal FIFO sequence, the full sequence when the client stays connected —
skipping exactly the items whose transformed text is empty or
whitespace-only. -/
theorem claim_C1_fifo_dispatch :
    (∀ (style lang : String) (conn : ℕ → Bool) (trans : ℕ → String)
        (tele : ℕ → ℕ → ℚ) (k : ℕ) (q : List QueueItem),
      ListLeads (dispatchesOf (processQueueLoop style lang conn trans tele k q))
        (dispatchSpec style q)) ∧
    (∀ (style lang : String) (trans : ℕ → String) (tele : ℕ → ℕ → ℚ)
        (k : ℕ) (q : List QueueItem),
      dispatchesOf (processQueueLoop style lang (fun _ => true) trans tele k q) =
        dispatchSpec style q) :=
  ⟨fun style lang conn trans tele k q => loop_dispatch_leads style lang conn trans tele q k,
   fun style lang trans tele k q => loop_dispatch_all style lang trans tele q k⟩

/-- C5: when `endOfQueueTime` never grows beyond the pre-send value by more
than 0.1, the 15s arrival poll returns `false` (timeout); the events of a
run never depend on the telemetry at all, and with the client connected the
loop still dispatches every remaining segment — the pipeline degrades, it
neither stalls nor errors. -/
theorem claim_C5_timeout_degrades :
    (∀ (readings : ℕ → ℚ) (preEnd : ℚ),
      (∀ j, ¬ preEnd + 1/10 < readings j) → arrivalWait readings preEnd = false) ∧
    (∀ (style lang : String) (conn : ℕ → Bool) (trans : ℕ → String)
        (tele tele' : ℕ → ℕ → ℚ) (k : ℕ) (q : List QueueItem),
      processQueueLoop style lang conn trans tele k q =
        processQueueLoop style lang conn trans tele' k q) ∧
    (∀ (style lang : String) (trans : ℕ → String) (tele : ℕ → ℕ → ℚ)
        (k : ℕ) (q : List QueueItem),
      dispatchesOf (processQueueLoop style lang (fun _ => true) trans tele k q) =
        dispatchSpec style q) :=
  ⟨fun readings preEnd h => arrivalWaitFrom_stagnant readings preEnd h 150 0,
   fun style lang conn trans tele tele' k q =>
     loop_tele_irrelevant style lang conn trans tele tele' q k,
   fun style lang trans tele k q => loop_dispatch_all style lang trans tele q k⟩

/-- Witness for C5: with flat telemetry the arrival wait times out. -/
theorem claim_C5_witness : arrivalWait (fun _ => 0) 0 = false :=
  claim_C5_timeout_degrades.1 (fun _ => 0) 0 (fun j => by norm_num)

/-- C10: every filler queue item is pushed with `refData = null`, and every
persistence insert a run performs has a non-null `refData` and a non-empty
translation buffer — so a filler segment never triggers an insert. -/
theorem claim_C10_filler_never_persisted :
    (∀ (d : TranscriptRec) (turnId : String) (c : ℕ) (segs : List String),
      ((enqueueSegs d turnId c segs).1.all
        fun it => it.refData.isSome ||
          (it == (⟨fillerToken, none, some turnId⟩ : QueueItem))) = true) ∧
    (∀ (style lang : String) (conn : ℕ → Bool) (trans : ℕ → String)
        (tele : ℕ → ℕ → ℚ) (k : ℕ) (q : List QueueItem),
      ((insertsOf (processQueueLoop style lang conn trans tele k q)).all
        fun ev => ev.1.refData.isSome && !(ev.2.translated_text == "")) = true) :=
  ⟨fun d turnId c segs => enqueueSegs_filler_refData d turnId segs c,
   fun style lang conn trans tele k q =>
     loop_inserts_sound style lang conn trans tele q k⟩

/-- `trimNonempty` over a cons. -/
theorem trimNonempty_cons (x : List Char) (l : List (List Char)) :
    trimNonempty (x :: l) =
      (if 0 < (jsTrim (String.mk x)).length then [jsTrim (String.mk x)] else []) ++
        trimNonempty l := by
  simp only [trimNonempty, List.map_cons, List.filter_cons]
  split <;> simp_all

/-- An empty field contributes nothing after trimming and filtering. -/
theorem trimNonempty_empty_head (l : List (List Char)) :
    trimNonempty ([] :: l) = trimNonempty l := by
  rw [trimNonempty_cons]
  norm_num
  decide

/-- Equivalence of the two splitters modulo trimming and dropping empty
fields: the `\r?\n+` splitter and the per-line `\r?\n` splitter agree once
empty fields are discarded (a newline run only contributes empty fields). -/
theorem splitGo_equiv : ∀ (cs : List Char) (run pending : Bool) (acc : List Char),
    (run = true → pending = false ∧ acc = []) →
    trimNonempty (splitGo run pending cs acc) =
      trimNonempty (splitLinesGo pending cs acc) := by
  intro cs
  induction cs with
  | nil => intro run pending acc h; rfl
  | cons c rest ih =>
    intro run pending acc h
    by_cases hn : c = '\n'
    · subst hn
      cases run with
      | true =>
        obtain ⟨hp, ha⟩ := h rfl
        subst hp
        subst ha
        simp only [splitGo, splitLinesGo, if_pos rfl, ite_true, List.reverse_nil]
        rw [ih true false [] (fun _ => ⟨rfl, rfl⟩), trimNonempty_empty_head]
      | false =>
        simp only [splitGo, splitLinesGo, if_pos rfl, ite_true, ite_false,
          Bool.false_eq_true]
        rw [trimNonempty_cons, trimNonempty_cons,
          ih true false [] (fun _ => ⟨rfl, rfl⟩)]
    · by_cases hr : c = '\r'
      · subst hr
        simp only [splitGo, splitLinesGo, if_neg hn, if_pos rfl]
        exact ih false true _ (fun hh => absurd hh (by decide))
      · simp only [splitGo, splitLinesGo, if_neg hn, if_neg hr]
        exact ih false false _ (fun hh => absurd hh (by decide))

/-- `segmentText` agrees with its amended description: split at every line
break, trim, drop empties. -/
theorem segmentText_eq_amended (text : String) :
    segmentText text = segmentTextAmended text := by
  by_cases h : text = ""
  · subst h; rfl
  · unfold segmentText segmentTextAmended strSplitRegex strSplitLines
    rw [if_neg h]
    have heq := splitGo_equiv text.data false false [] (fun hh => absurd hh (by decide))
    simpa [trimNonempty, List.map_map, Function.comp] using heq

/-- C3 counterexample: on `"Hello\nWorld"` (a single line break, no blank
line) the code splits into two segments while the blank-line-boundary
description of the claim yields the single paragraph `"Hello\nWorld"`. -/
theorem claim_C3_counterexample :
    segmentText "Hello\nWorld" = ["Hello", "World"] ∧
    segmentTextBlankLineSpec "Hello\nWorld" = ["Hello\nWorld"] ∧
    segmentText "Hello\nWorld" ≠ segmentTextBlankLineSpec "Hello\nWorld" := by
  refine ⟨by decide, by decide, by decide⟩

/-- C3 (amended): `segmentText` splits at every line-break boundary (each
`\n`, optionally preceded by `\r`, single newlines included — not only
blank lines), trims each piece and drops the empty ones; in particular
`"Hello\n\nWorld\n"` segments to `["Hello", "World"]`. -/
theorem claim_C3_amended_segmentation :
    (∀ text : String, segmentText text = segmentTextAmended text) ∧
    segmentText "Hello\n\nWorld\n" = ["Hello", "World"] :=
  ⟨segmentText_eq_amended, by decide⟩
